import Mathlib

/-!
Verification of the medical-records pipeline (ExtractData.py, CleanseData.py,
AnalyzeData.py) against its natural-language specification.

The Python code is shallowly embedded: each DataFrame is a `List` of row
structures, float-valued code columns become exact rationals (`ℚ`, with `none`
standing for a missing value / NaN), Python integer bitwise-or becomes
`Nat.lor` (written `|||`), and fallible operations return `Except` or
`Option`.  All definitions follow the source line by line; helper lemmas and
theorems come afterwards.
-/

namespace ExtractData

/-- Validity scan of one CPT entry, from `Codes.generate_CPT_codes`:
every character must be a digit or a dash. -/
def validCPTChars (cs : List Char) : Bool :=
  cs.all (fun c => (('0' ≤ c ∧ c ≤ '9') ∨ c = '-' : Bool))

/-- Python `str.split('-')` on the character list of a code entry. -/
def splitOnDash : List Char → List (List Char)
  | [] => [[]]
  | c :: rest =>
    match splitOnDash rest with
    | [] => [[c]]
    | p :: ps => if c = '-' then [] :: p :: ps else (c :: p) :: ps

/-- Python `int(s)` on an all-digit string: fails on the empty string,
otherwise reads the decimal number.  (The caller has already checked that
every character is a digit.) -/
def parseNat (cs : List Char) : Option ℕ :=
  match cs with
  | [] => none
  | _ => some (cs.foldl (fun n c => 10 * n + (c.toNat - '0'.toNat)) 0)

/-- Processing of a single (non-`done`, non-`default`) CPT entry inside the
input loop of `Codes.generate_CPT_codes`: validity scan, then either range
expansion via `range(int(first), int(last)+1)` or a plain append.  Errors
model the printed `INVALID ENTRY` retry and the uncaught Python exceptions
(`ValueError` from unpacking `split('-')` into two names or from `int('')`). -/
def processCPTEntry (code : String) : Except String (List String) :=
  let cs := code.toList
  if validCPTChars cs then
    if cs.contains '-' then
      match splitOnDash cs with
      | [first, last] =>
        match parseNat first, parseNat last with
        | some f, some l => .ok ((List.range (l + 1 - f)).map (fun i => toString (f + i)))
        | _, _ => .error "ValueError: invalid literal for int()"
      | _ => .error "ValueError: unpacking split result"
    else
      .ok [code]
  else
    .error "INVALID ENTRY. Please try again."

/-- `Query.create_query`: the first diagnosis / procedure-classification code,
anchored with `WHERE`; a trailing `*` wildcard becomes a SQL `LIKE` with `%`. -/
def create_query (col_list : List String) (codes : List String) : String :=
  let col_str := "(" ++ String.intercalate "," col_list ++ ")"
  let code := codes.headD ""
  if code.toList.contains '*' then
    let code2 := (code.toList.map (fun c => if c = '*' then '%' else c)).asString
    (col_list.drop 1).foldl
      (fun q col => q ++ "\nOR " ++ col ++ " LIKE \"" ++ code2 ++ "\"")
      ("SELECT * FROM medical_headers" ++ "\nWHERE " ++ col_list.headD "" ++ " LIKE \"" ++ code2 ++ "\"")
  else
    "SELECT * FROM medical_headers" ++ "\nWHERE \"" ++ code ++ "\" in " ++ col_str

/-- `Query.fill_query`: OR-append every further code to the query. -/
def fill_query (col_list : List String) (codes : List String) (query : String) : String :=
  codes.foldl
    (fun q code =>
      if code.toList.contains '*' then
        let code2 := (code.toList.map (fun c => if c = '*' then '%' else c)).asString
        col_list.foldl (fun q2 col => q2 ++ "\nOR " ++ col ++ " LIKE \"" ++ code2 ++ "\"") q
      else
        q ++ "\nOR \"" ++ code ++ "\" IN " ++ col_str)
    query
where
  col_str : String := "(" ++ String.intercalate "," col_list ++ ")"

/-- The 26 diagnosis column names `DA, D1, ..., D25`. -/
def D_list : List String := "DA" :: (List.range 25).map (fun i => "D" ++ toString (i + 1))

/-- The 15 procedure-classification column names `P1, ..., P15`. -/
def P_list : List String := (List.range 15).map (fun i => "P" ++ toString (i + 1))

/-- `Query.get_query`: header-table predicate construction.  Returns `none`
("select nothing") when both code lists are empty. -/
def get_query (D_codes P_codes : List String) : Option String :=
  if D_codes ≠ [] ∧ P_codes ≠ [] then
    some (fill_query P_list P_codes
      (fill_query D_list (D_codes.drop 1) (create_query D_list D_codes)))
  else if D_codes ≠ [] then
    some (fill_query D_list (D_codes.drop 1) (create_query D_list D_codes))
  else if P_codes ≠ [] then
    some (fill_query P_list (P_codes.drop 1) (create_query P_list P_codes))
  else
    none

/-- `Query.get_CPT_query`: service-line predicate construction.  The source
indexes `self.CPT_codes[0]` unconditionally, so an empty code list raises
(`IndexError`), modelled as `.error`. -/
def get_CPT_query (CPT_codes : List String) : Except String String :=
  match CPT_codes with
  | [] => .error "IndexError: list index out of range"
  | c0 :: rest =>
    .ok (rest.foldl
      (fun q code => q ++ "\nOR procedure = \"" ++ code ++ "\" ")
      ("SELECT * FROM medical_service_lines \nWHERE procedure = " ++ c0))

end ExtractData

namespace CleanseData

/-- One row of the merged `visits ⋈ services` table after the numeric
coercion in `Cleanse.wrangle`: the four natural-key id columns stay strings,
the 26 diagnosis slots (`DA, D1..D25`), the 15 procedure-classification slots
(`P1..P15`) and the CPT `procedure` column are floats with `none` as the
missing-value marker (NaN), modelled in exact rational arithmetic.  Columns
that are dropped unread by `clean_data` (modifiers, revenue code, ...) are
omitted. -/
structure RawRow where
  encounter_key : String
  patient_id : String
  doctor_id : String
  hospital_id : String
  dSlots : List (Option ℚ)
  pSlots : List (Option ℚ)
  procCode : Option ℚ
  total_claim_charge_amount : ℚ
deriving DecidableEq, Repr

/-- A `RawRow` together with the four engineered binary flag columns. -/
structure FERow extends RawRow where
  benign : ℕ
  malignant : ℕ
  colonoscopy : ℕ
  colectomy : ℕ
deriving DecidableEq, Repr

/-- `df[col].isin([211.3, 211.4])` on a diagnosis slot; NaN never matches. -/
def isBenignCode (d : Option ℚ) : Bool :=
  match d with
  | some q => (q = 211.3 ∨ q = 211.4 : Bool)
  | none => false

/-- `df[col] == 45.23` on a procedure-classification slot. -/
def isColonoscopySlot (p : Option ℚ) : Bool :=
  match p with
  | some q => (q = 45.23 : Bool)
  | none => false

/-- `df[col]//1 == 152` on a diagnosis slot (float floor division). -/
def isMalignantCode (d : Option ℚ) : Bool :=
  match d with
  | some q => ((⌊q⌋ : ℚ) = 152 : Bool)
  | none => false

/-- `((df[col]//0.1)/10).isin([45.8, 45.7])` on a procedure-classification
slot, in exact rational arithmetic: floor division by `0.1`, then `/10`. -/
def isColectomySlot (p : Option ℚ) : Bool :=
  match p with
  | some q => ((⌊q / (1 / 10)⌋ : ℚ) / 10 = 45.8 ∨ (⌊q / (1 / 10)⌋ : ℚ) / 10 = 45.7 : Bool)
  | none => false

/-- The `colon_codes` list from `feature_engineer` (line 85):
`[45378, 44146] + range(44150, 44161) + range(44204, 44209) + range(44210, 44213)`. -/
def colon_codes : List ℚ :=
  [45378, 44146] ++ ((List.range 11).map (fun i => ((44150 + i : ℕ) : ℚ)))
    ++ ((List.range 5).map (fun i => ((44204 + i : ℕ) : ℚ)))
    ++ ((List.range 3).map (fun i => ((44210 + i : ℕ) : ℚ)))

/-- The `colectomy_codes` list from `feature_engineer` (line 99):
`[44110, 44146] + range(44150, 44161) + range(44204, 44209) + range(44210, 44212)`. -/
def colectomy_codes : List ℚ :=
  [44110, 44146] ++ ((List.range 11).map (fun i => ((44150 + i : ℕ) : ℚ)))
    ++ ((List.range 5).map (fun i => ((44204 + i : ℕ) : ℚ)))
    ++ ((List.range 2).map (fun i => ((44210 + i : ℕ) : ℚ)))

/-- `df['procedure'].isin(codes)`; NaN never matches. -/
def procIn (codes : List ℚ) (p : Option ℚ) : Bool :=
  match p with
  | some q => codes.contains q
  | none => false

/-- One column loop of `feature_engineer`: the flag starts at 0 and
`df.loc[cond, flag] = 1` sets it on each matching slot column in turn. -/
def slotFlag (cond : Option ℚ → Bool) (slots : List (Option ℚ)) : ℕ :=
  slots.foldl (fun b s => if cond s then 1 else b) 0

/-- `Cleanse.feature_engineer`, per row: derives the four binary flags from
the diagnosis slots, the procedure-classification slots and the CPT
`procedure` column. -/
def feature_engineer (r : RawRow) : FERow :=
  let benign := slotFlag isBenignCode r.dSlots
  let colonoscopy0 := slotFlag isColonoscopySlot r.pSlots
  let colonoscopy := if procIn colon_codes r.procCode then 1 else colonoscopy0
  let malignant := slotFlag isMalignantCode r.dSlots
  let colectomy0 := slotFlag isColectomySlot r.pSlots
  let colectomy := if procIn colectomy_codes r.procCode then 1 else colectomy0
  { toRawRow := r, benign := benign, malignant := malignant,
    colonoscopy := colonoscopy, colectomy := colectomy }

/-- One row of the cleaned table produced by `Cleanse.clean_data`: the slot
and administrative columns are dropped and `total_claim_charge_amount` is
renamed `total_claim`. -/
structure CRow where
  encounter_key : String
  benign : ℕ
  malignant : ℕ
  colonoscopy : ℕ
  colectomy : ℕ
  total_claim : ℚ
  doctor_id : String
  patient_id : String
  hospital_id : String
deriving DecidableEq, Repr

/-- `Cleanse.clean_data`, per row. -/
def clean_data (r : FERow) : CRow :=
  { encounter_key := r.encounter_key, benign := r.benign, malignant := r.malignant,
    colonoscopy := r.colonoscopy, colectomy := r.colectomy,
    total_claim := r.total_claim_charge_amount,
    doctor_id := r.doctor_id, patient_id := r.patient_id, hospital_id := r.hospital_id }

/-- The per-column loop of `Cleanse.make_new_ids`: walk the column, keep a
dictionary `seen` of already-assigned values and a counter `index` (always
equal to the dictionary's size), emitting the stored id for a seen value and
the next fresh id for an unseen one. -/
def assignIds (seen : List (String × ℕ)) (index : ℕ) : List String → List ℕ
  | [] => []
  | v :: rest =>
    match seen.lookup v with
    | some n => n :: assignIds seen index rest
    | none => index :: assignIds ((v, index) :: seen) (index + 1) rest

/-- A whole surrogate-id column, from an empty dictionary. -/
def newIds (l : List String) : List ℕ := assignIds [] 0 l

/-- One row of the numeric-id table returned first by `make_new_ids`. -/
structure MRow where
  new_encounter_key : ℕ
  benign : ℕ
  malignant : ℕ
  colonoscopy : ℕ
  colectomy : ℕ
  total_claim : ℚ
  new_doctor_id : ℕ
  new_patient_id : ℕ
  new_hospital_id : ℕ
deriving DecidableEq, Repr

/-- One row of the `ids` mapping table returned second by `make_new_ids`. -/
structure IdRow where
  new_encounter_key : ℕ
  new_patient_id : ℕ
  new_doctor_id : ℕ
  new_hospital_id : ℕ
  encounter_key : String
  patient_id : String
  doctor_id : String
  hospital_id : String
deriving DecidableEq, Repr

/-- Zip the cleaned rows with the four freshly assigned id columns to form
the numeric `data` table. -/
def combineRows : List CRow → List ℕ → List ℕ → List ℕ → List ℕ → List MRow
  | c :: cs, e :: es, p :: ps, d :: ds, h :: hs =>
    { new_encounter_key := e, benign := c.benign, malignant := c.malignant,
      colonoscopy := c.colonoscopy, colectomy := c.colectomy,
      total_claim := c.total_claim, new_doctor_id := d,
      new_patient_id := p, new_hospital_id := h } :: combineRows cs es ps ds hs
  | _, _, _, _, _ => []

/-- Zip the cleaned rows with the four id columns to form the `ids` table. -/
def combineIdRows : List CRow → List ℕ → List ℕ → List ℕ → List ℕ → List IdRow
  | c :: cs, e :: es, p :: ps, d :: ds, h :: hs =>
    { new_encounter_key := e, new_patient_id := p, new_doctor_id := d,
      new_hospital_id := h, encounter_key := c.encounter_key,
      patient_id := c.patient_id, doctor_id := c.doctor_id,
      hospital_id := c.hospital_id } :: combineIdRows cs es ps ds hs
  | _, _, _, _, _ => []

/-- `Cleanse.make_new_ids`: independently per id column, replace natural keys
by first-seen dense surrogate integers; also return the mapping table. -/
def make_new_ids (l : List CRow) : List MRow × List IdRow :=
  let e := newIds (l.map (fun r => r.encounter_key))
  let p := newIds (l.map (fun r => r.patient_id))
  let d := newIds (l.map (fun r => r.doctor_id))
  let h := newIds (l.map (fun r => r.hospital_id))
  (combineRows l e p d h, combineIdRows l e p d h)

/-- The flag OR-update of `merge_duplicates` (line 167):
`data.loc[row, col] = data.loc[prev_row, col] | data.loc[row, col]` for the
four flag columns, Python integer bitwise or. -/
def orFlags (prev r : MRow) : MRow :=
  { r with benign := prev.benign ||| r.benign,
           malignant := prev.malignant ||| r.malignant,
           colonoscopy := prev.colonoscopy ||| r.colonoscopy,
           colectomy := prev.colectomy ||| r.colectomy }

/-- The in-place OR pass of `merge_duplicates`: iterate over exactly the rows
whose key is duplicated (`data.duplicated(subset=key, keep=False)`), in table
order, carrying the previously visited duplicated row (already updated); when
the current key equals the previous one, OR the flags into the current row. -/
def orPass (dup : ℕ → Bool) : Option MRow → List MRow → List MRow
  | _, [] => []
  | prev, r :: rest =>
    if dup r.new_encounter_key then
      let r2 :=
        match prev with
        | some p => if p.new_encounter_key = r.new_encounter_key then orFlags p r else r
        | none => r
      r2 :: orPass dup (some r2) rest
    else
      r :: orPass dup prev rest

/-- `drop_duplicates(subset=key, keep='last')`: a row survives exactly when
no later row has the same key. -/
def dropDupKeepLast {α : Type} (key : α → ℕ) : List α → List α
  | [] => []
  | r :: rest =>
    if rest.any (fun s => key s == key r) then dropDupKeepLast key rest
    else r :: dropDupKeepLast key rest

/-- `Cleanse.merge_duplicates`: OR the flags of consecutive duplicated rows,
then keep the last row of every `new_encounter_key` group, in both `data`
and `ids`. -/
def merge_duplicates (data : List MRow) (ids : List IdRow) : List MRow × List IdRow :=
  let dup := fun k => (2 ≤ data.countP (fun r => r.new_encounter_key == k) : Bool)
  let data2 := orPass dup none data
  (dropDupKeepLast (fun r => r.new_encounter_key) data2,
   dropDupKeepLast (fun r => r.new_encounter_key) ids)

/-- The row pipeline of `Cleanse.wrangle` from the merged raw table to the
final `data` and `ids` tables: feature engineering, cleaning, id
normalization, duplicate collapsing. -/
def wrangle (raw : List RawRow) : List MRow × List IdRow :=
  let fe := raw.map feature_engineer
  let data := fe.map clean_data
  let pair := make_new_ids data
  merge_duplicates pair.1 pair.2

end CleanseData

namespace AnalyzeData

open CleanseData

/-- `Analyze.remove_weird_doctor`: drop exactly the rows whose doctor
surrogate id is 234 (`data[~(data['new_doctor_id'] == 234)]`). -/
def remove_weird_doctor (data : List MRow) : List MRow :=
  data.filter (fun r => !(r.new_doctor_id == 234))

/-- First-seen distinct values with an initial accumulator; with `[]` it is
both pandas `Series.unique()` and `drop_duplicates()` (keep first). -/
def extendSeen {α : Type} [DecidableEq α] (d : List α) (l : List α) : List α :=
  l.foldl (fun acc v => if v ∈ acc then acc else acc ++ [v]) d

/-- One row of the doctor-mistake report built by `Analyze.get_mistakes`. -/
structure MistakeRow where
  new_doctor_id : ℕ
  chances : ℕ
  mistakes : ℕ
  pctMistakes : ℚ
  doctor_id : String
deriving DecidableEq, Repr

/-- The sort key of `sort_values(by=['% mistakes', 'chances'],
ascending=[True, False])`: mistake rate ascending, ties broken by chance
count descending. -/
def mistakeOrder (a b : MistakeRow) : Prop :=
  a.pctMistakes < b.pctMistakes ∨ (a.pctMistakes = b.pctMistakes ∧ b.chances ≤ a.chances)

instance : DecidableRel mistakeOrder := fun a b => by
  unfold mistakeOrder; infer_instance

instance : IsTotal MistakeRow mistakeOrder := by
  constructor
  intro a b
  unfold mistakeOrder
  rcases lt_trichotomy a.pctMistakes b.pctMistakes with h | h | h
  · exact Or.inl (Or.inl h)
  · rcases le_total b.chances a.chances with hc | hc
    · exact Or.inl (Or.inr ⟨h, hc⟩)
    · exact Or.inr (Or.inr ⟨h.symm, hc⟩)
  · exact Or.inr (Or.inl h)

instance : IsTrans MistakeRow mistakeOrder := by
  constructor
  intro a b c hab hbc
  unfold mistakeOrder at *
  rcases hab with h1 | ⟨h1, h1c⟩
  · rcases hbc with h2 | ⟨h2, _⟩
    · exact Or.inl (h1.trans h2)
    · exact Or.inl (h2 ▸ h1)
  · rcases hbc with h2 | ⟨h2, h2c⟩
    · exact Or.inl (h1 ▸ h2)
    · exact Or.inr ⟨h1.trans h2, h2c.trans h1c⟩

/-- `Analyze.get_mistakes`: filter to benign-only rows, group per doctor in
first-seen order, count chances (group size) and mistakes (colectomy rows),
compute the rate `mistakes/chances*100`, join the natural doctor key from
the deduplicated id map (inner join, left order preserved), and sort by
rate ascending with ties broken by chances descending. -/
def get_mistakes (data : List MRow) (ids : List IdRow) : List MistakeRow :=
  let benign_data := data.filter (fun r => r.benign == 1 && r.malignant == 0)
  let doc_ids := extendSeen [] (benign_data.map (fun r => r.new_doctor_id))
  let results := doc_ids.map (fun i =>
    let chances := benign_data.filter (fun r => r.new_doctor_id == i)
    let mistakes := chances.filter (fun r => r.colectomy == 1)
    (i, chances.length, mistakes.length,
      ((mistakes.length : ℚ) / (chances.length : ℚ)) * 100))
  let idPairs := extendSeen [] (ids.map (fun r => (r.new_doctor_id, r.doctor_id)))
  let merged := results.flatMap (fun t =>
    (idPairs.filter (fun p => p.1 == t.1)).map (fun p =>
      { new_doctor_id := t.1, chances := t.2.1, mistakes := t.2.2.1,
        pctMistakes := t.2.2.2, doctor_id := p.2 }))
  List.insertionSort mistakeOrder merged

end AnalyzeData

namespace Examples

open CleanseData AnalyzeData

/-- A merged row whose only code information is CPT procedure 45380. -/
def row45380 : RawRow :=
  { encounter_key := "E1", patient_id := "P1", doctor_id := "D1", hospital_id := "H1",
    dSlots := List.replicate 26 none, pSlots := List.replicate 15 none,
    procCode := some 45380, total_claim_charge_amount := 0 }

/-- A merged row whose only code information is CPT procedure 44146. -/
def row44146 : RawRow :=
  { encounter_key := "E2", patient_id := "P1", doctor_id := "D1", hospital_id := "H1",
    dSlots := List.replicate 26 none, pSlots := List.replicate 15 none,
    procCode := some 44146, total_claim_charge_amount := 0 }

/-- A merged row whose only code information is procedure-classification
slot value 45.69. -/
def row4569 : RawRow :=
  { encounter_key := "E3", patient_id := "P1", doctor_id := "D1", hospital_id := "H1",
    dSlots := List.replicate 26 none,
    pSlots := [some (45.69 : ℚ), none, none, none, none, none, none, none,
               none, none, none, none, none, none, none],
    procCode := none, total_claim_charge_amount := 0 }

/-- A numeric-id row with the given encounter key and flags, all other
columns zero. -/
def mrow (k b m cy ct : ℕ) : MRow :=
  { new_encounter_key := k, benign := b, malignant := m, colonoscopy := cy,
    colectomy := ct, total_claim := 0, new_doctor_id := 0,
    new_patient_id := 0, new_hospital_id := 0 }

/-- Interleaved duplicate groups: two rows of encounter 0 separated by rows
of encounter 1.  The encounter-0 rows carry flags `(1,0,0,0)` and
`(0,0,1,0)`. -/
def interleaved : List MRow :=
  [mrow 0 1 0 0 0, mrow 1 0 0 0 0, mrow 0 0 0 1 0, mrow 1 0 0 0 0]

/-- Adjacent duplicate rows of one encounter with flags `(1,0,0,0)` and
`(0,0,1,0)`. -/
def adjacentPair : List MRow :=
  [mrow 0 1 0 0 0, mrow 0 0 0 1 0]

/-- A benign-only analysis row for the given doctor, with the given
colectomy flag. -/
def arow (doc ct : ℕ) : MRow :=
  { new_encounter_key := 0, benign := 1, malignant := 0, colonoscopy := 0,
    colectomy := ct, total_claim := 0, new_doctor_id := doc,
    new_patient_id := 0, new_hospital_id := 0 }

/-- Ranking example of the spec: doctor A (id 0, 1 chance, 1 mistake),
doctor B (id 1, 10 chances, 1 mistake), doctor C (id 2, 10 chances,
5 mistakes). -/
def rankData : List MRow :=
  [arow 0 1]
    ++ (arow 1 1 :: List.replicate 9 (arow 1 0))
    ++ (List.replicate 5 (arow 2 1) ++ List.replicate 5 (arow 2 0))

/-- An id-map row whose only relevant columns are the doctor ids. -/
def idrow (doc : ℕ) (name : String) : IdRow :=
  { new_encounter_key := 0, new_patient_id := 0, new_doctor_id := doc,
    new_hospital_id := 0, encounter_key := "", patient_id := "",
    doctor_id := name, hospital_id := "" }

/-- Id map for the ranking example: doctors 0, 1, 2 are A, B, C. -/
def rankIds : List IdRow := [idrow 0 "A", idrow 1 "B", idrow 2 "C"]

/-- The expected ranking-example report: B (rate 10), C (rate 50),
A (rate 100). -/
def rankReport : List MistakeRow :=
  [{ new_doctor_id := 1, chances := 10, mistakes := 1, pctMistakes := 10, doctor_id := "B" },
   { new_doctor_id := 2, chances := 10, mistakes := 5, pctMistakes := 50, doctor_id := "C" },
   { new_doctor_id := 0, chances := 1, mistakes := 1, pctMistakes := 100, doctor_id := "A" }]

end Examples

namespace SpecModel

open CleanseData

/-- The spec's "rounded to one decimal place" (round half up). -/
def roundedOneDecimal (q : ℚ) : ℚ := (⌊q * 10 + 1 / 2⌋ : ℚ) / 10

/-- The colectomy CPT set exactly as the claim states it:
`{44110, 44146, 44150-44160, 44204-44208, 44210, 44211}`. -/
def colectomyClaimCPT : List ℚ :=
  [44110, 44146] ++ ((List.range 11).map (fun i => ((44150 + i : ℕ) : ℚ)))
    ++ ((List.range 5).map (fun i => ((44204 + i : ℕ) : ℚ)))
    ++ [44210, 44211]

/-- The colectomy condition exactly as the claim states it: some
procedure-classification slot, rounded to one decimal place, equals 45.7 or
45.8, or the CPT procedure code is in the claimed colectomy set. -/
def colectomyClaimCond (r : RawRow) : Bool :=
  (r.pSlots.any (fun p =>
    match p with
    | some q => (roundedOneDecimal q = 45.7 ∨ roundedOneDecimal q = 45.8 : Bool)
    | none => false))
  || procIn colectomyClaimCPT r.procCode

/-- A binary flag value: 0 or 1. -/
def flag01 (n : ℕ) : Prop := n = 0 ∨ n = 1

/-- All four flag columns of a collapsed row are binary. -/
def flags01M (r : MRow) : Prop :=
  flag01 r.benign ∧ flag01 r.malignant ∧ flag01 r.colonoscopy ∧ flag01 r.colectomy

/-- All four flag columns of a feature-engineered row are binary. -/
def flags01FE (r : FERow) : Prop :=
  flag01 r.benign ∧ flag01 r.malignant ∧ flag01 r.colonoscopy ∧ flag01 r.colectomy

/-- All four flag columns of a cleaned row are binary. -/
def flags01C (r : CRow) : Prop :=
  flag01 r.benign ∧ flag01 r.malignant ∧ flag01 r.colonoscopy ∧ flag01 r.colectomy

end SpecModel

section Lemmas

open CleanseData

lemma orFlags_key (p r : CleanseData.MRow) :
    (orFlags p r).new_encounter_key = r.new_encounter_key := rfl

lemma map_key_orPass (dup : ℕ → Bool) (prev : Option CleanseData.MRow)
    (l : List CleanseData.MRow) :
    (orPass dup prev l).map (fun r => r.new_encounter_key)
      = l.map (fun r => r.new_encounter_key) := by
  induction l generalizing prev with
  | nil => rfl
  | cons r rest ih =>
    by_cases h : dup r.new_encounter_key
    · cases prev with
      | none => simp [orPass, h, ih]
      | some p =>
        by_cases hk : p.new_encounter_key = r.new_encounter_key
        · simp [orPass, h, hk, orFlags_key, ih]
        · simp [orPass, h, hk, ih]
    · simp [orPass, h, ih]

lemma length_dropDupKeepLast {α : Type} (key : α → ℕ) (l : List α) :
    (dropDupKeepLast key l).length = (l.map key).toFinset.card := by
  induction l with
  | nil => simp [dropDupKeepLast]
  | cons r rest ih =>
    by_cases h : rest.any (fun s => key s == key r)
    · have hmem : key r ∈ rest.map key := by
        rcases List.any_eq_true.mp h with ⟨s, hs, hks⟩
        exact List.mem_map.mpr ⟨s, hs, by simpa using hks⟩
      have : insert (key r) (rest.map key).toFinset = (rest.map key).toFinset :=
        Finset.insert_eq_self.mpr (List.mem_toFinset.mpr hmem)
      simp [dropDupKeepLast, h, ih, List.toFinset_cons, this]
    · have hmem : key r ∉ rest.map key := by
        intro hc
        rcases List.mem_map.mp hc with ⟨s, hs, he⟩
        exact h (List.any_eq_true.mpr ⟨s, hs, by simp [he]⟩)
      have : key r ∉ (rest.map key).toFinset := fun hc => hmem (List.mem_toFinset.mp hc)
      simp [dropDupKeepLast, h, ih, List.toFinset_cons,
        Finset.card_insert_of_not_mem this]

lemma toFinset_map_dropDupKeepLast {α : Type} (key : α → ℕ) (l : List α) :
    ((dropDupKeepLast key l).map key).toFinset = (l.map key).toFinset := by
  induction l with
  | nil => simp [dropDupKeepLast]
  | cons r rest ih =>
    by_cases h : rest.any (fun s => key s == key r)
    · have hmem : key r ∈ rest.map key := by
        rcases List.any_eq_true.mp h with ⟨s, hs, hks⟩
        exact List.mem_map.mpr ⟨s, hs, by simpa using hks⟩
      have : insert (key r) (rest.map key).toFinset = (rest.map key).toFinset :=
        Finset.insert_eq_self.mpr (List.mem_toFinset.mpr hmem)
      simp [dropDupKeepLast, h, ih, List.toFinset_cons, this]
    · simp [dropDupKeepLast, h, ih, List.toFinset_cons]

lemma foldl_flag (cond : Option ℚ → Bool) (b : ℕ) (slots : List (Option ℚ)) :
    slots.foldl (fun acc s => if cond s then 1 else acc) b
      = if slots.any cond then 1 else b := by
  induction slots generalizing b with
  | nil => simp
  | cons s rest ih =>
    by_cases h : cond s
    · simp [List.foldl_cons, h, ih]
    · simp [List.foldl_cons, h, ih]

lemma slotFlag_eq (cond : Option ℚ → Bool) (slots : List (Option ℚ)) :
    slotFlag cond slots = if slots.any cond then 1 else 0 :=
  foldl_flag cond 0 slots

lemma procIn_iff (codes : List ℚ) (pc : Option ℚ) :
    procIn codes pc = true ↔ ∃ q, pc = some q ∧ q ∈ codes := by
  cases pc with
  | none => simp [procIn]
  | some q => simp [procIn, List.elem_iff, List.contains]

lemma benign_eq (r : CleanseData.RawRow) :
    (feature_engineer r).benign = if r.dSlots.any isBenignCode then 1 else 0 := by
  simp [feature_engineer, slotFlag_eq]

lemma malignant_eq (r : CleanseData.RawRow) :
    (feature_engineer r).malignant = if r.dSlots.any isMalignantCode then 1 else 0 := by
  simp [feature_engineer, slotFlag_eq]

lemma colonoscopy_eq (r : CleanseData.RawRow) :
    (feature_engineer r).colonoscopy
      = if procIn colon_codes r.procCode then 1
        else if r.pSlots.any isColonoscopySlot then 1 else 0 := by
  simp [feature_engineer, slotFlag_eq]

lemma colectomy_eq (r : CleanseData.RawRow) :
    (feature_engineer r).colectomy
      = if procIn colectomy_codes r.procCode then 1
        else if r.pSlots.any isColectomySlot then 1 else 0 := by
  simp [feature_engineer, slotFlag_eq]

lemma div_tenth (q : ℚ) : q / (1 / 10) = q * 10 := by
  rw [div_eq_mul_inv, one_div, inv_inv]

lemma colectomyClaimCPT_eq : SpecModel.colectomyClaimCPT = colectomy_codes := by
  decide

open SpecModel in
lemma lor01 {a b : ℕ} (ha : flag01 a) (hb : flag01 b) : flag01 (a ||| b) := by
  rcases ha with ha | ha <;> rcases hb with hb | hb <;> subst ha <;> subst hb <;> simp [flag01]

open SpecModel in
lemma fe_flags01 (r : CleanseData.RawRow) : flags01FE (feature_engineer r) := by
  refine ⟨?_, ?_, ?_, ?_⟩
  · rw [flag01, benign_eq]; split_ifs <;> simp
  · rw [flag01, malignant_eq]; split_ifs <;> simp
  · rw [flag01, colonoscopy_eq]; split_ifs <;> simp
  · rw [flag01, colectomy_eq]; split_ifs <;> simp

open SpecModel in
lemma clean_flags01 {r : CleanseData.FERow} (h : flags01FE r) :
    flags01C (clean_data r) := h

open SpecModel in
lemma mem_combineRows {c : List CleanseData.CRow} {es ps ds hs : List ℕ}
    {mr : CleanseData.MRow} (h : mr ∈ combineRows c es ps ds hs) :
    ∃ cr ∈ c, mr.benign = cr.benign ∧ mr.malignant = cr.malignant
      ∧ mr.colonoscopy = cr.colonoscopy ∧ mr.colectomy = cr.colectomy := by
  induction c generalizing es ps ds hs with
  | nil => simp [combineRows] at h
  | cons cr0 rest ih =>
    cases es with
    | nil => simp [combineRows] at h
    | cons e es =>
      cases ps with
      | nil => simp [combineRows] at h
      | cons p ps =>
        cases ds with
        | nil => simp [combineRows] at h
        | cons d ds =>
          cases hs with
          | nil => simp [combineRows] at h
          | cons hh hs =>
            rw [combineRows] at h
            rcases List.mem_cons.mp h with h0 | h0
            · exact ⟨cr0, List.mem_cons_self _ _, by subst h0; exact ⟨rfl, rfl, rfl, rfl⟩⟩
            · rcases ih h0 with ⟨cr, hcr, hf⟩
              exact ⟨cr, List.mem_cons_of_mem _ hcr, hf⟩

open SpecModel in
lemma orFlags_flags01 {p r : CleanseData.MRow} (hp : flags01M p) (hr : flags01M r) :
    flags01M (orFlags p r) :=
  ⟨lor01 hp.1 hr.1, lor01 hp.2.1 hr.2.1, lor01 hp.2.2.1 hr.2.2.1, lor01 hp.2.2.2 hr.2.2.2⟩

open SpecModel in
lemma orPass_flags01 (dup : ℕ → Bool) (l : List CleanseData.MRow) :
    ∀ (prev : Option CleanseData.MRow), (∀ r ∈ l, flags01M r) →
      (∀ p, prev = some p → flags01M p) →
      ∀ r2 ∈ orPass dup prev l, flags01M r2 := by
  induction l with
  | nil => intro prev _ _ r2 h; simp [orPass] at h
  | cons r rest ih =>
    intro prev hl hprev r2 h2
    by_cases hd : dup r.new_encounter_key
    · have hr : flags01M r := hl r (List.mem_cons_self _ _)
      set rr := (match prev with
        | some p => if p.new_encounter_key = r.new_encounter_key then orFlags p r else r
        | none => r) with hrr
      have hr2 : flags01M rr := by
        cases prev with
        | none => simpa [hrr] using hr
        | some p =>
          by_cases hk : p.new_encounter_key = r.new_encounter_key
          · simpa [hrr, hk] using orFlags_flags01 (hprev p rfl) hr
          · simpa [hrr, hk] using hr
      have hexp : orPass dup prev (r :: rest) = rr :: orPass dup (some rr) rest := by
        rw [orPass.eq_def]
        simp [hd, hrr]
      rw [hexp] at h2
      rcases List.mem_cons.mp h2 with h0 | h0
      · exact h0 ▸ hr2
      · exact ih (some rr) (fun s hs => hl s (List.mem_cons_of_mem _ hs))
          (fun p hp => by cases hp; exact hr2) r2 h0
    · have hexp : orPass dup prev (r :: rest) = r :: orPass dup prev rest := by
        rw [orPass.eq_def]
        simp [hd]
      rw [hexp] at h2
      rcases List.mem_cons.mp h2 with h0 | h0
      · exact h0 ▸ hl r (List.mem_cons_self _ _)
      · exact ih prev (fun s hs => hl s (List.mem_cons_of_mem _ hs)) hprev r2 h0

lemma dropDupKeepLast_sublist {α : Type} (key : α → ℕ) (l : List α) :
    (dropDupKeepLast key l).Sublist l := by
  induction l with
  | nil => simp [dropDupKeepLast]
  | cons r rest ih =>
    rw [dropDupKeepLast]
    split_ifs
    · exact ih.cons r
    · exact ih.cons₂ r

end Lemmas

section IdLemmas

open CleanseData AnalyzeData

variable {α : Type} [DecidableEq α]

lemma extendSeen_cons (d : List α) (v : α) (l : List α) :
    extendSeen d (v :: l) = extendSeen (if v ∈ d then d else d ++ [v]) l := rfl

lemma extendSeen_append (d : List α) (l1 l2 : List α) :
    extendSeen d (l1 ++ l2) = extendSeen (extendSeen d l1) l2 :=
  List.foldl_append _ _ _ _

lemma exists_extendSeen_eq_append (d l : List α) :
    ∃ t, extendSeen d l = d ++ t := by
  induction l generalizing d with
  | nil => exact ⟨[], (List.append_nil d).symm⟩
  | cons v rest ih =>
    rw [extendSeen_cons]
    by_cases h : v ∈ d
    · rw [if_pos h]; exact ih d
    · rw [if_neg h]
      rcases ih (d ++ [v]) with ⟨t, ht⟩
      exact ⟨v :: t, by rw [ht, List.append_assoc]; rfl⟩

lemma mem_extendSeen (d l : List α) (x : α) :
    x ∈ extendSeen d l ↔ x ∈ d ∨ x ∈ l := by
  induction l generalizing d with
  | nil => simp [extendSeen]
  | cons v rest ih =>
    rw [extendSeen_cons]
    by_cases h : v ∈ d
    · rw [if_pos h, ih, List.mem_cons]
      constructor
      · rintro (hx | hx) <;> tauto
      · rintro (hx | hx | hx)
        · tauto
        · subst hx; tauto
        · tauto
    · rw [if_neg h, ih]
      simp only [List.mem_append, List.mem_cons, List.mem_singleton]
      tauto

lemma nodup_extendSeen (d l : List α) (hd : d.Nodup) :
    (extendSeen d l).Nodup := by
  induction l generalizing d with
  | nil => exact hd
  | cons v rest ih =>
    rw [extendSeen_cons]
    by_cases h : v ∈ d
    · rw [if_pos h]; exact ih d hd
    · rw [if_neg h]
      exact ih (d ++ [v]) (by simp [List.nodup_append, hd, List.disjoint_singleton, h])

lemma indexOf_append_left {x : α} {d : List α} (t : List α) (h : x ∈ d) :
    (d ++ t).indexOf x = d.indexOf x := by
  induction d with
  | nil => cases h
  | cons a d ih =>
    by_cases hax : a = x
    · rw [List.cons_append, List.indexOf_cons_eq _ hax, List.indexOf_cons_eq _ hax]
    · have hxd : x ∈ d := by
        rcases List.mem_cons.mp h with h0 | h0
        · exact absurd h0.symm hax
        · exact h0
      rw [List.cons_append, List.indexOf_cons_ne _ hax, List.indexOf_cons_ne _ hax, ih hxd]

lemma indexOf_append_self (d : List α) (x : α) (h : x ∉ d) :
    (d ++ [x]).indexOf x = d.length := by
  induction d with
  | nil => simp
  | cons a d ih =>
    have hax : a ≠ x := fun he => h (he ▸ List.mem_cons_self a d)
    have hxd : x ∉ d := fun hc => h (List.mem_cons_of_mem a hc)
    rw [List.cons_append, List.indexOf_cons_ne _ hax, ih hxd, List.length_cons]

lemma assignIds_eq_map (l : List String) :
    ∀ (d : List String) (seen : List (String × ℕ)),
      (∀ v, seen.lookup v = if v ∈ d then some (d.indexOf v) else none) →
      assignIds seen d.length l = l.map (fun v => (extendSeen d l).indexOf v) := by
  induction l with
  | nil => intro d seen _; rfl
  | cons v rest ih =>
    intro d seen hspec
    have hlk := hspec v
    by_cases h : v ∈ d
    · rw [if_pos h] at hlk
      have hE : extendSeen d (v :: rest) = extendSeen d rest := by
        rw [extendSeen_cons, if_pos h]
      have hhead : (extendSeen d rest).indexOf v = d.indexOf v := by
        rcases exists_extendSeen_eq_append d rest with ⟨t, ht⟩
        rw [ht]
        exact indexOf_append_left t h
      calc assignIds seen d.length (v :: rest)
          = d.indexOf v :: assignIds seen d.length rest := by rw [assignIds, hlk]
        _ = d.indexOf v :: rest.map (fun w => (extendSeen d rest).indexOf w) := by
              rw [ih d seen hspec]
        _ = (extendSeen d (v :: rest)).indexOf v
              :: rest.map (fun w => (extendSeen d (v :: rest)).indexOf w) := by
              rw [hE, hhead]
        _ = (v :: rest).map (fun w => (extendSeen d (v :: rest)).indexOf w) := by
              rw [List.map_cons]
    · rw [if_neg h] at hlk
      have hE : extendSeen d (v :: rest) = extendSeen (d ++ [v]) rest := by
        rw [extendSeen_cons, if_neg h]
      have hspec2 : ∀ w, ((v, d.length) :: seen).lookup w
          = if w ∈ d ++ [v] then some ((d ++ [v]).indexOf w) else none := by
        intro w
        by_cases hw : w = v
        · subst hw
          rw [if_pos (by simp), indexOf_append_self d w h]
          simp [List.lookup]
        · have hlk2 : ((v, d.length) :: seen).lookup w = seen.lookup w := by
            simp [List.lookup, beq_false_of_ne hw]
          rw [hlk2, hspec w]
          by_cases hwd : w ∈ d
          · rw [if_pos hwd, if_pos (by simp [hwd]), indexOf_append_left [v] hwd]
          · rw [if_neg hwd, if_neg (by simp [hwd, hw])]
      have hlen : (d ++ [v]).length = d.length + 1 := by
        rw [List.length_append, List.length_singleton]
      have hrec := ih (d ++ [v]) ((v, d.length) :: seen) hspec2
      rw [hlen] at hrec
      have hhead : (extendSeen (d ++ [v]) rest).indexOf v = d.length := by
        rcases exists_extendSeen_eq_append (d ++ [v]) rest with ⟨t, ht⟩
        rw [ht, indexOf_append_left t (by simp), indexOf_append_self d v h]
      calc assignIds seen d.length (v :: rest)
          = d.length :: assignIds ((v, d.length) :: seen) (d.length + 1) rest := by
              rw [assignIds, hlk]
        _ = d.length :: rest.map (fun w => (extendSeen (d ++ [v]) rest).indexOf w) := by
              rw [hrec]
        _ = (extendSeen d (v :: rest)).indexOf v
              :: rest.map (fun w => (extendSeen d (v :: rest)).indexOf w) := by
              rw [hE, hhead]
        _ = (v :: rest).map (fun w => (extendSeen d (v :: rest)).indexOf w) := by
              rw [List.map_cons]

lemma newIds_eq_map (l : List String) :
    newIds l = l.map (fun v => (extendSeen [] l).indexOf v) :=
  assignIds_eq_map l [] [] (fun v => by simp [List.lookup])

lemma newIds_length (l : List String) : (newIds l).length = l.length := by
  rw [newIds_eq_map, List.length_map]

lemma nodup_fsl (l : List String) : (extendSeen [] l).Nodup :=
  nodup_extendSeen [] l List.nodup_nil

lemma mem_fsl (l : List String) (x : String) : x ∈ extendSeen [] l ↔ x ∈ l := by
  rw [mem_extendSeen]
  simp

lemma toFinset_fsl (l : List String) : (extendSeen [] l).toFinset = l.toFinset := by
  ext x
  rw [List.mem_toFinset, List.mem_toFinset, mem_fsl]

lemma length_fsl (l : List String) : (extendSeen [] l).length = l.toFinset.card := by
  rw [← toFinset_fsl, List.toFinset_card_of_nodup (nodup_fsl l)]

lemma newIds_getD (l : List String) (i : ℕ) (hi : i < l.length) :
    (newIds l).getD i 0 = (extendSeen [] l).indexOf (l.getD i "") := by
  have hi2 : i < (newIds l).length := by rw [newIds_length]; exact hi
  have hi3 : i < (l.map (fun v => (extendSeen [] l).indexOf v)).length := by
    rw [List.length_map]; exact hi
  rw [List.getD_eq_getElem _ _ hi2, List.getD_eq_getElem _ _ hi,
    List.getElem_of_eq (newIds_eq_map l) hi2, List.getElem_map]

lemma getD_mem (l : List String) (i : ℕ) (hi : i < l.length) :
    l.getD i "" ∈ l := by
  rw [List.getD_eq_getElem _ _ hi]
  exact List.getElem_mem hi

lemma combineRows_columns :
    ∀ (c : List CleanseData.CRow) (es ps ds hs : List ℕ),
      es.length = c.length → ps.length = c.length → ds.length = c.length →
      hs.length = c.length →
      (combineRows c es ps ds hs).map (fun r => r.new_encounter_key) = es
      ∧ (combineRows c es ps ds hs).map (fun r => r.new_patient_id) = ps
      ∧ (combineRows c es ps ds hs).map (fun r => r.new_doctor_id) = ds
      ∧ (combineRows c es ps ds hs).map (fun r => r.new_hospital_id) = hs := by
  intro c
  induction c with
  | nil =>
    intro es ps ds hs he hp hd hh
    rw [List.eq_nil_of_length_eq_zero he, List.eq_nil_of_length_eq_zero hp,
      List.eq_nil_of_length_eq_zero hd, List.eq_nil_of_length_eq_zero hh]
    exact ⟨rfl, rfl, rfl, rfl⟩
  | cons c0 rest ih =>
    intro es ps ds hs he hp hd hh
    cases es with
    | nil => cases he
    | cons e es =>
      cases ps with
      | nil => cases hp
      | cons p ps =>
        cases ds with
        | nil => cases hd
        | cons d ds =>
          cases hs with
          | nil => cases hh
          | cons hh0 hs =>
            simp only [List.length_cons, Nat.succ.injEq] at he hp hd hh
            rcases ih es ps ds hs he hp hd hh with ⟨h1, h2, h3, h4⟩
            rw [combineRows]
            exact ⟨by rw [List.map_cons, h1], by rw [List.map_cons, h2],
              by rw [List.map_cons, h3], by rw [List.map_cons, h4]⟩

lemma combineIdRows_columns :
    ∀ (c : List CleanseData.CRow) (es ps ds hs : List ℕ),
      es.length = c.length → ps.length = c.length → ds.length = c.length →
      hs.length = c.length →
      (combineIdRows c es ps ds hs).map (fun r => r.new_encounter_key) = es
      ∧ (combineIdRows c es ps ds hs).map (fun r => r.new_patient_id) = ps
      ∧ (combineIdRows c es ps ds hs).map (fun r => r.new_doctor_id) = ds
      ∧ (combineIdRows c es ps ds hs).map (fun r => r.new_hospital_id) = hs := by
  intro c
  induction c with
  | nil =>
    intro es ps ds hs he hp hd hh
    rw [List.eq_nil_of_length_eq_zero he, List.eq_nil_of_length_eq_zero hp,
      List.eq_nil_of_length_eq_zero hd, List.eq_nil_of_length_eq_zero hh]
    exact ⟨rfl, rfl, rfl, rfl⟩
  | cons c0 rest ih =>
    intro es ps ds hs he hp hd hh
    cases es with
    | nil => cases he
    | cons e es =>
      cases ps with
      | nil => cases hp
      | cons p ps =>
        cases ds with
        | nil => cases hd
        | cons d ds =>
          cases hs with
          | nil => cases hh
          | cons hh0 hs =>
            simp only [List.length_cons, Nat.succ.injEq] at he hp hd hh
            rcases ih es ps ds hs he hp hd hh with ⟨h1, h2, h3, h4⟩
            rw [combineIdRows]
            exact ⟨by rw [List.map_cons, h1], by rw [List.map_cons, h2],
              by rw [List.map_cons, h3], by rw [List.map_cons, h4]⟩

end IdLemmas

section SortLemmas

lemma map_flatMap_eq_map {β γ δ : Type} (ts : List β) (f : β → List γ) (g : γ → δ)
    (k : β → δ) (h : ∀ t ∈ ts, (f t).map g = [k t]) :
    (ts.flatMap f).map g = ts.map k := by
  induction ts with
  | nil => rfl
  | cons t ts ih =>
    rw [List.flatMap_cons, List.map_append, h t (List.mem_cons_self t ts),
      ih (fun s hs => h s (List.mem_cons_of_mem _ hs)), List.singleton_append,
      List.map_cons]

end SortLemmas

section Theorems

open ExtractData CleanseData AnalyzeData Examples

/-- **C5**: building the CPT predicate from an empty code list fails (the
source indexes `CPT_codes[0]`), while building the header predicate from
empty diagnosis and procedure-classification lists succeeds with no
predicate (`None`). -/
theorem c5_empty_cpt_fails_empty_header_degrades :
    get_CPT_query [] = Except.error "IndexError: list index out of range"
    ∧ get_query [] [] = none := ⟨rfl, rfl⟩

/-- **C3 counterexample**: the reversed range `"44152-44150"` is accepted
(it expands to the empty code list); it is not rejected as invalid. -/
theorem c3_reversed_range_is_accepted :
    processCPTEntry "44152-44150" = Except.ok [] := rfl

/-- **C3 amended**: `"44150-44152"` expands to exactly
`{44150, 44151, 44152}`; the reversed range `"44152-44150"` is silently
accepted and expands to no codes at all. -/
theorem c3_range_expansion :
    processCPTEntry "44150-44152" = Except.ok ["44150", "44151", "44152"]
    ∧ processCPTEntry "44152-44150" = Except.ok [] := ⟨rfl, rfl⟩

/-- **C1**: the code contradicts the claimed (and comment-documented)
colonoscopy CPT set: CPT 45380 does not set the colonoscopy flag, while the
colectomy code 44146 does. -/
theorem c1_colonoscopy_cpt_set_is_wrong :
    (feature_engineer row45380).colonoscopy = 0
    ∧ (feature_engineer row44146).colonoscopy = 1 := by decide

/-- **C2**: with interleaved duplicate groups (encounter keys 0,1,0,1) the
OR pass never fires, so the retained encounter-0 row keeps only the last
row's flags `(0,0,1,0)` instead of the group OR `(1,0,1,0)`; for adjacent
duplicates the OR works as documented. -/
theorem c2_interleaved_duplicates_lose_flags :
    (merge_duplicates interleaved []).1 = [mrow 0 0 0 1 0, mrow 1 0 0 0 0]
    ∧ (merge_duplicates adjacentPair []).1 = [mrow 0 1 0 1 0] := by decide

/-- **C4 counterexample**: a row whose only code information is a
procedure-classification slot of 45.69 satisfies the claim's condition
(45.69 rounds to 45.7) but the code leaves its colectomy flag at 0. -/
theorem c4_rounding_counterexample :
    SpecModel.colectomyClaimCond row4569 = true
    ∧ (feature_engineer row4569).colectomy = 0 := by
  constructor
  · norm_num [SpecModel.colectomyClaimCond, SpecModel.roundedOneDecimal, row4569]
  · rw [colectomy_eq]
    norm_num [row4569, procIn, isColectomySlot]

/-- **C4 amended**: the colectomy flag is 1 exactly when some
procedure-classification slot *truncated* (floored) to one decimal place
equals 45.7 or 45.8, or the CPT procedure code lies in the configured
colectomy CPT set; otherwise it is 0. -/
theorem c4_colectomy_uses_floor (r : CleanseData.RawRow) :
    ((feature_engineer r).colectomy = 1 ↔
      ((∃ q, some q ∈ r.pSlots ∧ ((⌊q * 10⌋ : ℚ) / 10 = 45.7 ∨ (⌊q * 10⌋ : ℚ) / 10 = 45.8))
        ∨ (∃ q, r.procCode = some q ∧ q ∈ SpecModel.colectomyClaimCPT)))
    ∧ ((feature_engineer r).colectomy = 0 ↔
      ¬ ((∃ q, some q ∈ r.pSlots ∧ ((⌊q * 10⌋ : ℚ) / 10 = 45.7 ∨ (⌊q * 10⌋ : ℚ) / 10 = 45.8))
        ∨ (∃ q, r.procCode = some q ∧ q ∈ SpecModel.colectomyClaimCPT))) := by
  have hslot : (r.pSlots.any isColectomySlot = true) ↔
      (∃ q, some q ∈ r.pSlots ∧ ((⌊q * 10⌋ : ℚ) / 10 = 45.7 ∨ (⌊q * 10⌋ : ℚ) / 10 = 45.8)) := by
    rw [List.any_eq_true]
    constructor
    · rintro ⟨p, hp, hcond⟩
      cases p with
      | none => simp [isColectomySlot] at hcond
      | some q =>
        refine ⟨q, hp, ?_⟩
        have h2 := hcond
        simp only [isColectomySlot, decide_eq_true_eq, div_tenth] at h2
        tauto
    · rintro ⟨q, hq, hcond⟩
      refine ⟨some q, hq, ?_⟩
      simp only [isColectomySlot, decide_eq_true_eq, div_tenth]
      tauto
  have hproc : (procIn colectomy_codes r.procCode = true) ↔
      (∃ q, r.procCode = some q ∧ q ∈ SpecModel.colectomyClaimCPT) := by
    rw [procIn_iff, colectomyClaimCPT_eq]
  have hmain : (feature_engineer r).colectomy = 1 ↔
      ((∃ q, some q ∈ r.pSlots ∧ ((⌊q * 10⌋ : ℚ) / 10 = 45.7 ∨ (⌊q * 10⌋ : ℚ) / 10 = 45.8))
        ∨ (∃ q, r.procCode = some q ∧ q ∈ SpecModel.colectomyClaimCPT)) := by
    rw [colectomy_eq]
    by_cases h1 : procIn colectomy_codes r.procCode
    · simp only [h1, if_true]
      exact Iff.intro (fun _ => Or.inr (hproc.mp h1)) (fun _ => by simp)
    · simp only [h1, if_false]
      by_cases h2 : r.pSlots.any isColectomySlot
      · simp only [h2, if_true]
        exact Iff.intro (fun _ => Or.inl (hslot.mp h2)) (fun _ => by simp)
      · simp only [h2, if_false]
        constructor
        · intro h3; exact absurd h3 (by decide)
        · intro h3
          rcases h3 with h3 | h3
          · exact absurd (hslot.mpr h3) (by simpa using h2)
          · exact absurd (hproc.mpr h3) (by simpa using h1)
  refine ⟨hmain, ?_⟩
  have h01 : (feature_engineer r).colectomy = 0 ∨ (feature_engineer r).colectomy = 1 := by
    rw [colectomy_eq]
    by_cases h1 : procIn colectomy_codes r.procCode
    · simp [h1]
    · by_cases h2 : r.pSlots.any isColectomySlot
      · simp [h1, h2]
      · simp [h1, h2]
  constructor
  · intro h0
    intro hcond
    have := hmain.mpr hcond
    omega
  · intro hcond
    rcases h01 with h | h
    · exact h
    · exact absurd (hmain.mp h) hcond

/-- **C9**: `remove_weird_doctor` deletes exactly the rows whose doctor
surrogate id is 234: the result is a sublist of the input (rows unchanged),
contains no doctor-234 row, and retains every other row. -/
theorem c9_remove_weird_doctor_filters_234 (data : List CleanseData.MRow) :
    (remove_weird_doctor data).Sublist data
    ∧ (∀ r ∈ remove_weird_doctor data, r.new_doctor_id ≠ 234)
    ∧ (∀ r ∈ data, r.new_doctor_id ≠ 234 → r ∈ remove_weird_doctor data) := by
  refine ⟨List.filter_sublist _, ?_, ?_⟩
  · intro r hr
    have h := (List.mem_filter.mp hr).2
    simpa using h
  · intro r hr h
    exact List.mem_filter.mpr ⟨hr, by simpa using h⟩

/-- Witness for C9 at a concrete two-row table. -/
theorem c9_witness :
    (arow 3 0) ∈ remove_weird_doctor [arow 234 0, arow 3 0] :=
  (c9_remove_weird_doctor_filters_234 [arow 234 0, arow 3 0]).2.2
    (arow 3 0) (by decide) (by decide)

/-- **C8**: after duplicate collapsing, the row count of the collapsed data
table equals the number of distinct encounter surrogate ids (both of the
output and of the input table), and the same holds for the collapsed id-map
table. -/
theorem c8_collapse_cardinality (data : List CleanseData.MRow)
    (ids : List CleanseData.IdRow) :
    ((merge_duplicates data ids).1.length
        = ((merge_duplicates data ids).1.map (fun r => r.new_encounter_key)).toFinset.card
      ∧ (merge_duplicates data ids).1.length
        = (data.map (fun r => r.new_encounter_key)).toFinset.card)
    ∧ ((merge_duplicates data ids).2.length
        = ((merge_duplicates data ids).2.map (fun r => r.new_encounter_key)).toFinset.card
      ∧ (merge_duplicates data ids).2.length
        = (ids.map (fun r => r.new_encounter_key)).toFinset.card) := by
  unfold merge_duplicates
  refine ⟨⟨?_, ?_⟩, ⟨?_, ?_⟩⟩
  · rw [toFinset_map_dropDupKeepLast, length_dropDupKeepLast]
  · rw [length_dropDupKeepLast, map_key_orPass]
  · rw [toFinset_map_dropDupKeepLast, length_dropDupKeepLast]
  · rw [length_dropDupKeepLast]

/-- **C6**: the doctor-mistake report is sorted ascending by mistake rate
with ties broken descending by chance count; it has one row per physician
with at least one benign-only encounter; chances counts the doctor's
benign-only encounters, mistakes those with colectomy 1, and the rate is
mistakes/chances*100; on the spec's example (A: 1/1, B: 1/10, C: 5/10) the
order is B, C, A.  The hypothesis says the deduplicated id map has exactly
one entry per doctor occurring in the benign-only data (true of any
well-formed pipeline output). -/
theorem c6_mistake_ranking (data : List CleanseData.MRow) (ids : List CleanseData.IdRow)
    (hcov : ∀ r ∈ data.filter (fun r => r.benign == 1 && r.malignant == 0),
      ((extendSeen [] (ids.map (fun s => (s.new_doctor_id, s.doctor_id)))).filter
        (fun p => p.1 == r.new_doctor_id)).length = 1) :
    List.Sorted mistakeOrder (get_mistakes data ids)
    ∧ ((get_mistakes data ids).map (fun e => e.new_doctor_id)).Nodup
    ∧ (∀ i, i ∈ (get_mistakes data ids).map (fun e => e.new_doctor_id) ↔
        i ∈ (data.filter (fun r => r.benign == 1 && r.malignant == 0)).map
          (fun r => r.new_doctor_id))
    ∧ (∀ e ∈ get_mistakes data ids,
        e.chances = (data.filter (fun r => r.benign == 1 && r.malignant == 0)).countP
          (fun r => r.new_doctor_id == e.new_doctor_id)
        ∧ e.mistakes = (data.filter (fun r => r.benign == 1 && r.malignant == 0)).countP
          (fun r => r.colectomy == 1 && r.new_doctor_id == e.new_doctor_id)
        ∧ e.pctMistakes = (e.mistakes : ℚ) / (e.chances : ℚ) * 100)
    ∧ get_mistakes rankData rankIds = rankReport := by
  set bd := data.filter (fun r => r.benign == 1 && r.malignant == 0) with hbd
  set doc_ids := extendSeen [] (bd.map (fun r => r.new_doctor_id)) with hdocids
  set idPairs := extendSeen [] (ids.map (fun s => (s.new_doctor_id, s.doctor_id)))
    with hpairs
  set results := doc_ids.map (fun i =>
    (i, (bd.filter (fun r => r.new_doctor_id == i)).length,
      ((bd.filter (fun r => r.new_doctor_id == i)).filter
        (fun r => r.colectomy == 1)).length,
      ((((bd.filter (fun r => r.new_doctor_id == i)).filter
          (fun r => r.colectomy == 1)).length : ℚ)
        / (((bd.filter (fun r => r.new_doctor_id == i)).length : ℕ) : ℚ)) * 100))
    with hresults
  set merged := results.flatMap (fun t =>
    (idPairs.filter (fun p => p.1 == t.1)).map (fun p =>
      ({ new_doctor_id := t.1, chances := t.2.1, mistakes := t.2.2.1,
         pctMistakes := t.2.2.2, doctor_id := p.2 } : MistakeRow))) with hmerged
  have hrw : get_mistakes data ids = List.insertionSort mistakeOrder merged := rfl
  have hperm : (List.insertionSort mistakeOrder merged).Perm merged :=
    List.perm_insertionSort _ _
  have hdocs : merged.map (fun e => e.new_doctor_id) = doc_ids := by
    rw [hmerged]
    rw [map_flatMap_eq_map results _ _ (fun t => t.1) ?_]
    · rw [hresults, List.map_map]
      exact List.map_id doc_ids
    · intro t ht
      rw [List.map_map]
      obtain ⟨i, hi, rfl⟩ := List.mem_map.mp (hresults ▸ ht)
      have hmem : i ∈ bd.map (fun r => r.new_doctor_id) := by
        have h0 := (mem_extendSeen [] (bd.map (fun r => r.new_doctor_id)) i).mp
          (hdocids ▸ hi)
        rcases h0 with h0 | h0
        · cases h0
        · exact h0
      obtain ⟨r, hr, hri⟩ := List.mem_map.mp hmem
      have hlen1 := hcov r hr
      rw [hri] at hlen1
      obtain ⟨p, hp⟩ := List.length_eq_one.mp hlen1
      rw [hp]
      rfl
  have hnodup : doc_ids.Nodup := nodup_extendSeen [] _ List.nodup_nil
  have hmp : ((List.insertionSort mistakeOrder merged).map
      (fun e => e.new_doctor_id)).Perm doc_ids := by
    rw [← hdocs]
    exact hperm.map _
  refine ⟨?_, ?_, ?_, ?_, ?_⟩
  · rw [hrw]
    exact List.sorted_insertionSort _ _
  · rw [hrw]
    exact hmp.nodup_iff.mpr hnodup
  · intro i
    rw [hrw, hmp.mem_iff, hdocids, mem_extendSeen]
    simp
  · intro e he
    have he2 : e ∈ merged := hperm.mem_iff.mp (hrw ▸ he)
    obtain ⟨t, ht, hte⟩ := List.mem_flatMap.mp (hmerged ▸ he2)
    obtain ⟨p, hp, rfl⟩ := List.mem_map.mp hte
    obtain ⟨i, hi, rfl⟩ := List.mem_map.mp (hresults ▸ ht)
    refine ⟨?_, ?_, ?_⟩
    · show (bd.filter (fun r => r.new_doctor_id == i)).length
        = bd.countP (fun r => r.new_doctor_id == i)
      rw [List.countP_eq_length_filter]
    · show ((bd.filter (fun r => r.new_doctor_id == i)).filter
          (fun r => r.colectomy == 1)).length
        = bd.countP (fun r => r.colectomy == 1 && r.new_doctor_id == i)
      rw [List.countP_eq_length_filter, List.filter_filter]
    · rfl
  · have hstep : get_mistakes rankData rankIds = List.insertionSort mistakeOrder
        [{ new_doctor_id := 0, chances := 1, mistakes := 1,
           pctMistakes := ((1 : ℕ) : ℚ) / ((1 : ℕ) : ℚ) * 100, doctor_id := "A" },
         { new_doctor_id := 1, chances := 10, mistakes := 1,
           pctMistakes := ((1 : ℕ) : ℚ) / ((10 : ℕ) : ℚ) * 100, doctor_id := "B" },
         { new_doctor_id := 2, chances := 10, mistakes := 5,
           pctMistakes := ((5 : ℕ) : ℚ) / ((10 : ℕ) : ℚ) * 100, doctor_id := "C" }] := by
      rfl
    have hclean :
        [({ new_doctor_id := 0, chances := 1, mistakes := 1,
            pctMistakes := ((1 : ℕ) : ℚ) / ((1 : ℕ) : ℚ) * 100, doctor_id := "A" } : MistakeRow),
         { new_doctor_id := 1, chances := 10, mistakes := 1,
           pctMistakes := ((1 : ℕ) : ℚ) / ((10 : ℕ) : ℚ) * 100, doctor_id := "B" },
         { new_doctor_id := 2, chances := 10, mistakes := 5,
           pctMistakes := ((5 : ℕ) : ℚ) / ((10 : ℕ) : ℚ) * 100, doctor_id := "C" }]
        = [({ new_doctor_id := 0, chances := 1, mistakes := 1,
              pctMistakes := 100, doctor_id := "A" } : MistakeRow),
           { new_doctor_id := 1, chances := 10, mistakes := 1,
             pctMistakes := 10, doctor_id := "B" },
           { new_doctor_id := 2, chances := 10, mistakes := 5,
             pctMistakes := 50, doctor_id := "C" }] := by
      norm_num
    rw [hstep, hclean]
    decide

/-- Witness for C6 at the spec's ranking example. -/
theorem c6_witness :
    List.Sorted mistakeOrder (get_mistakes rankData rankIds)
    ∧ get_mistakes rankData rankIds = rankReport :=
  (fun h => ⟨h.1, h.2.2.2.2⟩) (c6_mistake_ranking rankData rankIds (by decide))

/-- **C7**: per id dimension, the surrogate-id assignment of `make_new_ids`
is length-preserving, maps two rows to the same surrogate exactly when their
natural keys are equal (a bijection between distinct natural keys and
surrogates), produces exactly the dense surrogate range `0..n-1`, and
assigns surrogates in first-seen order (a first occurrence receives the
number of distinct values seen before it); moreover each surrogate column
of both tables returned by `make_new_ids` is exactly this assignment applied
to the corresponding natural-key column. -/
theorem c7_surrogate_bijection :
    (∀ l : List String,
      (newIds l).length = l.length
      ∧ (∀ i j, i < l.length → j < l.length →
          ((newIds l).getD i 0 = (newIds l).getD j 0 ↔ l.getD i "" = l.getD j ""))
      ∧ (newIds l).toFinset = Finset.range l.toFinset.card
      ∧ (∀ i, i < l.length → l.getD i "" ∉ l.take i →
          (newIds l).getD i 0 = (l.take i).toFinset.card))
    ∧ (∀ t : List CleanseData.CRow,
        ((make_new_ids t).1.map (fun r => r.new_encounter_key)
            = newIds (t.map (fun r => r.encounter_key))
          ∧ (make_new_ids t).1.map (fun r => r.new_patient_id)
            = newIds (t.map (fun r => r.patient_id))
          ∧ (make_new_ids t).1.map (fun r => r.new_doctor_id)
            = newIds (t.map (fun r => r.doctor_id))
          ∧ (make_new_ids t).1.map (fun r => r.new_hospital_id)
            = newIds (t.map (fun r => r.hospital_id)))
        ∧ ((make_new_ids t).2.map (fun r => r.new_encounter_key)
            = newIds (t.map (fun r => r.encounter_key))
          ∧ (make_new_ids t).2.map (fun r => r.new_patient_id)
            = newIds (t.map (fun r => r.patient_id))
          ∧ (make_new_ids t).2.map (fun r => r.new_doctor_id)
            = newIds (t.map (fun r => r.doctor_id))
          ∧ (make_new_ids t).2.map (fun r => r.new_hospital_id)
            = newIds (t.map (fun r => r.hospital_id)))) := by
  constructor
  · intro l
    refine ⟨newIds_length l, ?_, ?_, ?_⟩
    · intro i j hi hj
      rw [newIds_getD l i hi, newIds_getD l j hj]
      exact List.indexOf_inj ((mem_fsl l _).mpr (getD_mem l i hi))
        ((mem_fsl l _).mpr (getD_mem l j hj))
    · rw [newIds_eq_map]
      ext k
      simp only [List.mem_toFinset, List.mem_map, Finset.mem_range]
      constructor
      · rintro ⟨v, hv, rfl⟩
        rw [← length_fsl]
        exact List.indexOf_lt_length.mpr ((mem_fsl l v).mpr hv)
      · intro hk
        rw [← length_fsl] at hk
        exact ⟨(extendSeen [] l).get ⟨k, hk⟩,
          (mem_fsl l _).mp (List.getElem_mem hk),
          List.indexOf_getElem (nodup_fsl l) k hk⟩
    · intro i hi hnot
      rw [newIds_getD l i hi]
      have hsplit : l.take i ++ l.getD i "" :: l.drop (i + 1) = l := by
        rw [List.getD_eq_getElem _ _ hi, ← List.drop_eq_getElem_cons hi,
          List.take_append_drop]
      have hD : extendSeen [] l
          = extendSeen (extendSeen [] (l.take i)) (l.getD i "" :: l.drop (i + 1)) := by
        conv_lhs => rw [← hsplit]
        rw [extendSeen_append]
      have hvE : l.getD i "" ∉ extendSeen [] (l.take i) := by
        rw [mem_fsl]
        exact hnot
      rw [hD, extendSeen_cons, if_neg hvE]
      rcases exists_extendSeen_eq_append
        (extendSeen [] (l.take i) ++ [l.getD i ""]) (l.drop (i + 1)) with ⟨t, ht⟩
      rw [ht, indexOf_append_left t (by simp), indexOf_append_self _ _ hvE, length_fsl]
  · intro t
    have he : (newIds (t.map (fun r => r.encounter_key))).length = t.length := by
      rw [newIds_length, List.length_map]
    have hp : (newIds (t.map (fun r => r.patient_id))).length = t.length := by
      rw [newIds_length, List.length_map]
    have hd : (newIds (t.map (fun r => r.doctor_id))).length = t.length := by
      rw [newIds_length, List.length_map]
    have hh : (newIds (t.map (fun r => r.hospital_id))).length = t.length := by
      rw [newIds_length, List.length_map]
    exact ⟨combineRows_columns t _ _ _ _ he hp hd hh,
      combineIdRows_columns t _ _ _ _ he hp hd hh⟩

/-- Witness for C7 on the column `["b", "a", "b"]`: rows 0 and 2 share a
surrogate, and the first occurrence of `"a"` (row 1) receives surrogate 1,
the number of distinct values before it. -/
theorem c7_witness :
    (newIds ["b", "a", "b"]).getD 0 0 = (newIds ["b", "a", "b"]).getD 2 0
    ∧ (newIds ["b", "a", "b"]).getD 1 0 = (["b", "a", "b"].take 1).toFinset.card :=
  ⟨((c7_surrogate_bijection.1 ["b", "a", "b"]).2.1 0 2 (by decide) (by decide)).mpr
      (by decide),
   (c7_surrogate_bijection.1 ["b", "a", "b"]).2.2.2 1 (by decide) (by decide)⟩

/-- **C10**: every row of the feature-engineered table has binary flags
(each of benign, malignant, colonoscopy, colectomy is 0 or 1), and the
invariant is preserved by cleaning, id normalization, duplicate collapsing
and benign-only filtering. -/
theorem c10_binary_flags (raw : List CleanseData.RawRow) :
    (∀ fr ∈ raw.map feature_engineer, SpecModel.flags01FE fr)
    ∧ (∀ cr ∈ (raw.map feature_engineer).map clean_data, SpecModel.flags01C cr)
    ∧ (∀ mr ∈ (make_new_ids ((raw.map feature_engineer).map clean_data)).1,
        SpecModel.flags01M mr)
    ∧ (∀ mr ∈ (wrangle raw).1, SpecModel.flags01M mr)
    ∧ (∀ mr ∈ (wrangle raw).1.filter (fun r => r.benign == 1 && r.malignant == 0),
        SpecModel.flags01M mr) := by
  have h1 : ∀ fr ∈ raw.map feature_engineer, SpecModel.flags01FE fr := by
    intro fr h
    rcases List.mem_map.mp h with ⟨r, _, he⟩
    exact he ▸ fe_flags01 r
  have h2 : ∀ cr ∈ (raw.map feature_engineer).map clean_data, SpecModel.flags01C cr := by
    intro cr h
    rcases List.mem_map.mp h with ⟨fr, hfr, he⟩
    exact he ▸ clean_flags01 (h1 fr hfr)
  have h3 : ∀ mr ∈ (make_new_ids ((raw.map feature_engineer).map clean_data)).1,
      SpecModel.flags01M mr := by
    intro mr h
    rcases mem_combineRows h with ⟨cr, hcr, hb, hm, hcy, hct⟩
    have hc := h2 cr hcr
    exact ⟨hb ▸ hc.1, hm ▸ hc.2.1, hcy ▸ hc.2.2.1, hct ▸ hc.2.2.2⟩
  have h4 : ∀ mr ∈ (wrangle raw).1, SpecModel.flags01M mr := by
    intro mr h
    have hsub := (dropDupKeepLast_sublist
      (fun r : CleanseData.MRow => r.new_encounter_key)
      (orPass (fun k =>
          ((2 : ℕ) ≤ (make_new_ids ((raw.map feature_engineer).map clean_data)).1.countP
            (fun r => r.new_encounter_key == k) : Bool))
        none (make_new_ids ((raw.map feature_engineer).map clean_data)).1)).subset h
    exact orPass_flags01 _ _ none h3 (fun p hp => by cases hp) mr hsub
  refine ⟨h1, h2, h3, h4, ?_⟩
  intro mr h
  exact h4 mr (List.mem_filter.mp h).1

/-- Witness for C10: the single collapsed row produced from `row45380`. -/
theorem c10_witness : SpecModel.flags01M (mrow 0 0 0 0 0) :=
  (c10_binary_flags [row45380]).2.2.2.1 (mrow 0 0 0 0 0) (by decide)

end Theorems
